import Mathlib

/-!
Verification of the csh-ldap client (src/client.rs, src/user.rs).

The Rust code is shallowly embedded: directory entries become association
lists from attribute names to lists of string values, fallible parsing
becomes `Option`, and a Rust panic (an `unwrap` on `None`) is modelled as
`none` at the outermost `Option` layer of the function that panics.
-/

namespace CshLdap

/-- A raw directory entry as produced by `SearchEntry::construct`:
a distinguished name plus a map from attribute name to value list.
The `HashMap<String, Vec<String>>` is modelled as an association list
with unique keys; lookup takes the first binding. -/
structure SearchEntry where
  dn : String
  attrs : List (String × List String)
deriving DecidableEq, Repr

/-- The decoded user record `LdapUser` from src/user.rs. -/
structure LdapUser where
  dn : String
  cn : String
  uid : String
  groups : List String
  krbPrincipalName : String
  mail : List String
  mobile : List String
  drinkBalance : Option Int
  ibutton : List String
deriving DecidableEq, Repr

/-- The sparse update descriptor `LdapUserChangeSet` from src/user.rs. -/
structure LdapUserChangeSet where
  dn : String
  drinkBalance : Option Int
  ibutton : Option (List String)
deriving DecidableEq, Repr

/-- Rust `str::parse::<String>` (`FromStr` for `String`): infallible. -/
def parse_string (s : String) : Option String := some s

/-- Value of a list of decimal digit characters, most significant first. -/
def digitsVal (l : List Char) : Nat :=
  l.foldl (fun acc c => acc * 10 + (c.toNat - 48)) 0

/-- Digit-run parser used by `parse_i64`: all characters must be ASCII
digits and there must be at least one. -/
def parseDigits (l : List Char) : Option Nat :=
  if l ≠ [] ∧ l.all Char.isDigit then some (digitsVal l) else none

/-- Rust `str::parse::<i64>`: an optional sign, then one or more ASCII
digits, nothing else; values outside the i64 range are an error. -/
def parse_i64 (s : String) : Option Int :=
  match s.data with
  | [] => none
  | '+' :: rest =>
      (parseDigits rest).bind fun n =>
        if n ≤ 2 ^ 63 - 1 then some (Int.ofNat n) else none
  | '-' :: rest =>
      (parseDigits rest).bind fun n =>
        if n ≤ 2 ^ 63 then some (-(Int.ofNat n)) else none
  | l =>
      (parseDigits l).bind fun n =>
        if n ≤ 2 ^ 63 - 1 then some (Int.ofNat n) else none

/-- `get_one` from src/user.rs, generic over the target parser.
Outer `none` models the Rust panic: `f.get(0).unwrap()` aborts when the
attribute is present with an empty value list.  Otherwise the code maps
an absent attribute to `None`, a parse failure on the first value to
`None`, and a parse success to `Some`. -/
def get_one (parse : String → Option α) (entry : List (String × List String))
    (field : String) : Option (Option α) :=
  match List.lookup field entry with
  | none => some none
  | some vs =>
      match vs.head? with
      | none => none
      | some v => some (parse v)

/-- `get_vec` from src/user.rs at `T = String`: the parse is infallible,
so the function returns the attribute's value list, or `[]` when the
attribute is absent. -/
def get_vec (entry : List (String × List String)) (field : String) : List String :=
  (List.lookup field entry).getD []

/-- Word character of the group pattern: the regex class `\w`, modelled
for ASCII as a letter, digit or underscore. -/
def isWordChar (c : Char) : Bool :=
  c.isAlphanum || c = '_'

/-- The literal tail of the group regex, following the captured name. -/
def groupTail : List Char :=
  ",cn=groups,cn=accounts,dc=csh,dc=rit,dc=edu".data

/-- Attempt to match the group regex at the start of `cs`: literal
`cn=`, then a maximal nonempty run of word characters (the capture),
then the literal `groupTail`; trailing characters are ignored. -/
def matchGroupAt (cs : List Char) : Option String :=
  match cs with
  | 'c' :: 'n' :: '=' :: rest =>
      let w := rest.takeWhile isWordChar
      if w.isEmpty then none
      else if groupTail.isPrefixOf (rest.dropWhile isWordChar) then
        some (String.mk w)
      else none
  | _ => none

/-- Leftmost unanchored search of the group regex, as `Regex::captures`
performs: try each start position left to right, return the first
capture found. -/
def scanGroup : List Char → Option String
  | [] => none
  | c :: rest =>
      match matchGroupAt (c :: rest) with
      | some nm => some nm
      | none => scanGroup rest

/-- `GROUP_REGEX.captures(group).map(|cap| cap["name"])` applied to one
member-of value. -/
def group_capture (s : String) : Option String :=
  scanGroup s.data

/-- `get_groups` from src/user.rs: keep, in order, the captured group
name of every member-of value the regex matches; drop the rest. -/
def get_groups (member_of : List String) : List String :=
  member_of.filterMap group_capture

/-- `LdapUser::from_entry` from src/user.rs.  The required fields `cn`,
`uid` and `krbPrincipalName` go through `get_one(..).unwrap()`: the
outer `Option` is `none` (a Rust panic) when any of them is absent or
fails to parse, or when any `get_one` call itself panics.
`drinkBalance` keeps the `Option` produced by `get_one`. -/
def LdapUser.from_entry (entry : SearchEntry) : Option LdapUser := do
  let cnO ← get_one parse_string entry.attrs "cn"
  let cn ← cnO
  let uidO ← get_one parse_string entry.attrs "uid"
  let uid ← uidO
  let krbO ← get_one parse_string entry.attrs "krbPrincipalName"
  let krb ← krbO
  let db ← get_one parse_i64 entry.attrs "drinkBalance"
  pure {
    dn := entry.dn
    cn := cn
    uid := uid
    groups := get_groups (get_vec entry.attrs "memberOf")
    krbPrincipalName := krb
    mail := get_vec entry.attrs "mail"
    mobile := get_vec entry.attrs "mobile"
    drinkBalance := db
    ibutton := get_vec entry.attrs "ibutton"
  }

/-- A modify operation sent to the directory.  Only `Mod::Replace` is
used by this client; the `HashSet<String>` of values is modelled as the
list of values in insertion order. -/
inductive Mod where
  | Replace (attr : String) (values : List String)
deriving DecidableEq, Repr

/-- Attribute name targeted by a modify operation. -/
def Mod.attr : Mod → String
  | .Replace a _ => a

/-- A call to `ldap.modify(dn, changes)`. -/
structure ModifyCall where
  dn : String
  changes : List Mod
deriving DecidableEq, Repr

/-- `LdapClient::get_user` from src/client.rs, after the search on
filter `uid=...` has produced `results`: exactly one entry is decoded
into `Some(user)`, any other count yields `None`.  The outer `Option`
is `none` when decoding panics (see `LdapUser.from_entry`). -/
def get_user (results : List SearchEntry) : Option (Option LdapUser) :=
  if h : results.length = 1 then
    (LdapUser.from_entry (results.get ⟨0, by omega⟩)).map some
  else
    some none

/-- `LdapClient::get_user_by_ibutton` from src/client.rs, after the
search on filter `ibutton=...` has produced `results`; the same
exactly-one cardinality policy as `get_user`. -/
def get_user_by_ibutton (results : List SearchEntry) : Option (Option LdapUser) :=
  if h : results.length = 1 then
    (LdapUser.from_entry (results.get ⟨0, by omega⟩)).map some
  else
    some none

/-- `LdapClient::get_user_by_phone` from src/client.rs, after the
search on filter `mobile=...` has produced `results`; the same
exactly-one cardinality policy as `get_user`. -/
def get_user_by_phone (results : List SearchEntry) : Option (Option LdapUser) :=
  if h : results.length = 1 then
    (LdapUser.from_entry (results.get ⟨0, by omega⟩)).map some
  else
    some none

/-- The `changes` vector built by `LdapClient::update_user`: one
replace per present field of the change set, `drinkBalance` first, then
`ibutton`; absent fields contribute nothing. -/
def update_user_changes (change_set : LdapUserChangeSet) : List Mod :=
  (match change_set.drinkBalance with
   | some b => [Mod.Replace "drinkBalance" [toString b]]
   | none => []) ++
  (match change_set.ibutton with
   | some ib => [Mod.Replace "ibutton" ib]
   | none => [])

/-- The modify call `update_user` sends unconditionally: addressed to
the change set's dn, carrying `update_user_changes`. -/
def update_user_modify (change_set : LdapUserChangeSet) : ModifyCall :=
  { dn := change_set.dn, changes := update_user_changes change_set }

/-- What `update_user` returns to its caller given the outcome of
`ldap.modify`: the source matches on the result, does nothing on `Ok`
and only prints the error on `Err`, returning unit either way. -/
def update_user (change_set : LdapUserChangeSet)
    (modify_result : Except String Unit) : Unit :=
  match change_set, modify_result with
  | _, .ok _ => ()
  | _, .error _ => ()

/-- The `changes` vector built by `LdapClient::set_user_nslock`: a
single replace of `nsAccountLock` with `locked.to_string()`. -/
def set_user_nslock_changes (locked : Bool) : List Mod :=
  [Mod.Replace "nsAccountLock" [if locked then "true" else "false"]]

/-- What `set_user_nslock` (hence `deactivate_user` / `activate_user`)
returns given the outcome of `ldap.modify`: unit in both arms, the
error only printed. -/
def set_user_nslock (dn : String) (locked : Bool)
    (modify_result : Except String Unit) : Unit :=
  match dn, locked, modify_result with
  | _, _, .ok _ => ()
  | _, _, .error _ => ()

/-- `deactivate_user` delegates to `set_user_nslock(dn, true)`. -/
def deactivate_user (dn : String) (modify_result : Except String Unit) : Unit :=
  set_user_nslock dn true modify_result

/-- `activate_user` delegates to `set_user_nslock(dn, false)`. -/
def activate_user (dn : String) (modify_result : Except String Unit) : Unit :=
  set_user_nslock dn false modify_result

/-- Rust `str::trim_end_matches('.')`: remove every trailing dot. -/
def trimTrailingDots (s : String) : String :=
  String.mk ((s.data.reverse.dropWhile (fun c => c = '.')).reverse)

/-- `get_ldap_servers` from src/client.rs, applied to the target hosts
of the SRV records the resolver returned: each record's target becomes
`ldaps://` followed by the target with trailing dots stripped, one URI
per record, in record order. -/
def get_ldap_servers (targets : List String) : List String :=
  targets.map (fun t => "ldaps://" ++ trimTrailingDots t)

/-- C1: each point lookup (`get_user`, `get_user_by_ibutton`,
`get_user_by_phone`) returns `None` when the search yields zero or two
or more entries, and `Some` of the decoded record when it yields
exactly one entry (and decoding succeeds). -/
theorem point_lookups_exactly_one (results : List SearchEntry) :
    (results.length ≠ 1 →
      get_user results = some none ∧
      get_user_by_ibutton results = some none ∧
      get_user_by_phone results = some none) ∧
    (∀ e u, results = [e] → LdapUser.from_entry e = some u →
      get_user results = some (some u) ∧
      get_user_by_ibutton results = some (some u) ∧
      get_user_by_phone results = some (some u)) := by
  constructor
  · intro h
    simp [get_user, get_user_by_ibutton, get_user_by_phone, h]
  · rintro e u rfl hu
    simp [get_user, get_user_by_ibutton, get_user_by_phone, hu]

/-- Witness for C1 at concrete inputs: an empty result set, a
two-entry result set, and a singleton result set with a decodable
entry. -/
theorem point_lookups_exactly_one_witness :
    get_user [] = some none ∧
    get_user_by_ibutton [⟨"a", []⟩, ⟨"b", []⟩] = some none ∧
    get_user_by_phone
      [⟨"uid=ada", [("cn", ["Ada"]), ("uid", ["ada"]),
        ("krbPrincipalName", ["ada@CSH"])]⟩] =
      some (some ⟨"uid=ada", "Ada", "ada", [], "ada@CSH", [], [], none, []⟩) :=
  ⟨((point_lookups_exactly_one []).1 (by decide)).1,
   ((point_lookups_exactly_one [⟨"a", []⟩, ⟨"b", []⟩]).1 (by decide)).2.1,
   ((point_lookups_exactly_one
      [⟨"uid=ada", [("cn", ["Ada"]), ("uid", ["ada"]),
        ("krbPrincipalName", ["ada@CSH"])]⟩]).2
      ⟨"uid=ada", [("cn", ["Ada"]), ("uid", ["ada"]),
        ("krbPrincipalName", ["ada@CSH"])]⟩
      ⟨"uid=ada", "Ada", "ada", [], "ada@CSH", [], [], none, []⟩
      rfl (by decide)).2.2⟩

/-- C2: the source swallows modify failures.  The caller-visible result
of `update_user`, `deactivate_user` and `activate_user` is the same
whether the underlying modify succeeded or failed: the error is only
printed, never surfaced. -/
theorem modify_failures_swallowed (cs : LdapUserChangeSet) (dn e : String) :
    update_user cs (Except.error e) = update_user cs (Except.ok ()) ∧
    deactivate_user dn (Except.error e) = deactivate_user dn (Except.ok ()) ∧
    activate_user dn (Except.error e) = activate_user dn (Except.ok ()) :=
  ⟨rfl, rfl, rfl⟩

/-- C3: decoding an entry whose required `cn` attribute is absent
panics (the outer `none` models the Rust process abort from
`get_one(..).unwrap()`); no `DecodeError` value is ever produced. -/
theorem from_entry_missing_cn_panics :
    LdapUser.from_entry ⟨"uid=ada,cn=users,cn=accounts,dc=csh,dc=rit,dc=edu",
      [("uid", ["ada"]), ("krbPrincipalName", ["ada@CSH"])]⟩ = none := rfl

/-- C4: when the required fields decode and `drinkBalance` is either
absent or present with an unparsable first value, `from_entry`
succeeds and yields an absent `drinkBalance`. -/
theorem drink_balance_degrades_to_absent (dn : String)
    (attrs : List (String × List String)) (cn uid krb : String)
    (hcn : get_one parse_string attrs "cn" = some (some cn))
    (huid : get_one parse_string attrs "uid" = some (some uid))
    (hkrb : get_one parse_string attrs "krbPrincipalName" = some (some krb))
    (hdb : List.lookup "drinkBalance" attrs = none ∨
      ∃ v vs, List.lookup "drinkBalance" attrs = some (v :: vs) ∧ parse_i64 v = none) :
    ∃ u, LdapUser.from_entry ⟨dn, attrs⟩ = some u ∧ u.drinkBalance = none := by
  have hdb' : get_one parse_i64 attrs "drinkBalance" = some none := by
    rcases hdb with h | ⟨v, vs, h, hp⟩
    · simp [get_one, h]
    · simp [get_one, h, hp]
  refine ⟨{ dn := dn, cn := cn, uid := uid,
            groups := get_groups (get_vec attrs "memberOf"),
            krbPrincipalName := krb, mail := get_vec attrs "mail",
            mobile := get_vec attrs "mobile", drinkBalance := none,
            ibutton := get_vec attrs "ibutton" }, ?_, rfl⟩
  simp [LdapUser.from_entry, hcn, huid, hkrb, hdb']

/-- Witness for C4: one entry with `drinkBalance` absent, one with an
unparsable first value. -/
theorem drink_balance_degrades_to_absent_witness :
    (∃ u, LdapUser.from_entry ⟨"d",
        [("cn", ["C"]), ("uid", ["u"]), ("krbPrincipalName", ["k"])]⟩ =
        some u ∧ u.drinkBalance = none) ∧
    (∃ u, LdapUser.from_entry ⟨"d",
        [("cn", ["C"]), ("uid", ["u"]), ("krbPrincipalName", ["k"]),
         ("drinkBalance", ["zzz"])]⟩ = some u ∧ u.drinkBalance = none) :=
  ⟨drink_balance_degrades_to_absent "d" _ "C" "u" "k" rfl rfl rfl (Or.inl rfl),
   drink_balance_degrades_to_absent "d" _ "C" "u" "k" rfl rfl rfl
     (Or.inr ⟨"zzz", [], rfl, by decide⟩)⟩

/-- C5: `get_groups` keeps exactly the member-of values the group
pattern matches, in their original relative order, each replaced by
its captured name; non-matching values are dropped without error. -/
theorem get_groups_matching_in_order (member_of : List String) :
    get_groups member_of =
      (member_of.filter (fun v => (group_capture v).isSome)).map
        (fun v => (group_capture v).getD "") ∧
    (get_groups member_of).length =
      (member_of.filter (fun v => (group_capture v).isSome)).length := by
  have hmap : get_groups member_of =
      (member_of.filter (fun v => (group_capture v).isSome)).map
        (fun v => (group_capture v).getD "") := by
    induction member_of with
    | nil => rfl
    | cons h t ih =>
        simp only [get_groups] at ih ⊢
        cases hc : group_capture h <;>
          simp [List.filterMap_cons, List.filter_cons, hc, ih]
  exact ⟨hmap, by rw [hmap, List.length_map]⟩

/-- C6: `update_user` builds exactly one replace operation per present
optional field and none for an absent field; with both fields absent
the modify call is still issued, carrying zero operations. -/
theorem update_user_one_replace_per_field (cs : LdapUserChangeSet) :
    (update_user_changes cs).countP (fun m => m.attr == "drinkBalance") =
      (if cs.drinkBalance.isSome then 1 else 0) ∧
    (update_user_changes cs).countP (fun m => m.attr == "ibutton") =
      (if cs.ibutton.isSome then 1 else 0) ∧
    (update_user_changes cs).length =
      (if cs.drinkBalance.isSome then 1 else 0) +
        (if cs.ibutton.isSome then 1 else 0) ∧
    (cs.drinkBalance = none → cs.ibutton = none →
      update_user_modify cs = { dn := cs.dn, changes := [] }) := by
  obtain ⟨dn, db, ib⟩ := cs
  cases db <;> cases ib <;>
    simp [update_user_changes, update_user_modify, Mod.attr, List.countP,
      List.countP.go]

/-- Witness for C6: the empty change set still produces a modify call,
with zero operations. -/
theorem update_user_one_replace_per_field_witness :
    update_user_modify ⟨"uid=x", none, none⟩ = { dn := "uid=x", changes := [] } :=
  (update_user_one_replace_per_field ⟨"uid=x", none, none⟩).2.2.2 rfl rfl

/-- C7: a change set with only `drinkBalance` present yields exactly
one replace of `drinkBalance`, and no operation touches `ibutton`. -/
theorem update_user_drink_only_frame (dn : String) (b : Int) :
    update_user_changes ⟨dn, some b, none⟩ =
      [Mod.Replace "drinkBalance" [toString b]] ∧
    (update_user_changes ⟨dn, some b, none⟩).all
      (fun m => m.attr != "ibutton") = true := by
  constructor
  · rfl
  · rfl

/-- C8: discovery produces one URI per SRV record, in record order,
formed by prefixing `ldaps://` to the record's target with trailing
dots stripped; no ranking, deduplication or filtering happens. -/
theorem get_ldap_servers_one_uri_per_record (targets : List String) :
    (get_ldap_servers targets).length = targets.length ∧
    (∀ i : Nat, (get_ldap_servers targets)[i]? =
      (targets[i]?).map (fun t => "ldaps://" ++ trimTrailingDots t)) ∧
    (∀ t : String, trimTrailingDots (t ++ ".") = trimTrailingDots t) := by
  refine ⟨by simp [get_ldap_servers],
    fun i => by simp [get_ldap_servers, List.getElem?_map], fun t => ?_⟩
  simp [trimTrailingDots, String.data_append, List.dropWhile]

/-- C10: decoding a single-valued field reads only the first attribute
value: `get_one` gives the same result whatever follows the first
value, and `from_entry` decodes identically when the tails of the
`cn`, `uid`, `krbPrincipalName` and `drinkBalance` value lists are
dropped. -/
theorem single_valued_reads_first_only :
    (∀ {α : Type} (parse : String → Option α)
       (rest : List (String × List String)) (f v : String)
       (t1 t2 : List String),
       get_one parse ((f, v :: t1) :: rest) f =
         get_one parse ((f, v :: t2) :: rest) f) ∧
    (∀ (dn c u k d : String) (cT uT kT dT : List String),
       LdapUser.from_entry ⟨dn, [("cn", c :: cT), ("uid", u :: uT),
         ("krbPrincipalName", k :: kT), ("drinkBalance", d :: dT)]⟩ =
       LdapUser.from_entry ⟨dn, [("cn", [c]), ("uid", [u]),
         ("krbPrincipalName", [k]), ("drinkBalance", [d])]⟩) := by
  constructor
  · intro α parse rest f v t1 t2
    simp [get_one, List.lookup]
  · intro dn c u k d cT uT kT dT
    rfl

end CshLdap
